import Mathlib

/-!
Verification of tigawanna/boxman (Go).

Shallow embedding conventions:
* Go strings are modelled as Lean `String`.  Go indexes and slices strings by
  UTF-8 bytes; every byte-level operation performed by the program
  (prefix tests against ASCII literals, slicing off the ASCII prefix "~/",
  splitting on the ASCII bytes '/' and '\n') coincides with the corresponding
  character-level operation on the decoded string, because UTF-8 is
  prefix-free and self-synchronising.  Where a byte count matters
  (`len(path) >= 2` in the POST handler) we use `String.utf8ByteSize`.
* `filepath.Clean`, `filepath.Join`, `filepath.Abs` (Unix rules) are embedded
  below as `goClean`, `goJoin2`/`goJoin3`, `goAbs`, operating on the character
  list of the string; splitting on '/' at the character level agrees with
  Go's byte-level algorithm.
* The process environment (`os.UserHomeDir`, `os.Getwd`) is modelled by an
  explicit `GoEnv` record; a `none` entry models the error case of the
  corresponding Go call.
* Go `int` is modelled as `Int` (no claim exercises 64-bit overflow);
  `fmt.Sprintf("%d", n)` is embedded as `intDec` (decimal rendering with a
  leading '-' for negatives, exactly Go's output).
-/

/-! ### Character-list splitting and joining -/

/-- Split a character list at every character satisfying `p`, keeping empty
groups, so that `splitP p` of a list with `k` separator occurrences has
`k + 1` groups.  This is the common core of Go's `strings.Split`-style
operations used by `filepath.Clean` (separator '/'), line scanning
(separator newline) and `strings.Fields` (whitespace separators). -/
def splitP (p : Char → Bool) : List Char → List (List Char)
  | [] => [[]]
  | c :: cs =>
    if p c then [] :: splitP p cs
    else
      match splitP p cs with
      | [] => [[c]]
      | g :: gs => (c :: g) :: gs

/-- Inverse of `splitP` for the '/' separator: interleave '/' between groups. -/
def joinSep : List (List Char) → List Char
  | [] => []
  | [g] => g
  | g :: gs => g ++ '/' :: joinSep gs

/-! ### Embedding of Go's path/filepath (Unix rules) -/

/-- Go `path/filepath.IsAbs` on Unix: the path starts with '/'. -/
def goIsAbs (s : String) : Bool :=
  match s.data with
  | c :: _ => c == '/'
  | [] => false

/-- Component processing loop of Go `filepath.Clean`: empty components and
"." are dropped; ".." pops the previous component, except that at the root it
is dropped and at the start of a relative path it is kept.  `acc` holds the
already-processed components in reverse order. -/
def cleanComps (rooted : Bool) : List (List Char) → List (List Char) → List (List Char)
  | [], acc => acc.reverse
  | g :: gs, acc =>
    if g = [] ∨ g = ['.'] then cleanComps rooted gs acc
    else if g = ['.', '.'] then
      match acc with
      | [] => if rooted then cleanComps rooted gs [] else cleanComps rooted gs [['.', '.']]
      | top :: rest =>
        if top = ['.', '.'] then cleanComps rooted gs (['.', '.'] :: top :: rest)
        else cleanComps rooted gs rest
    else cleanComps rooted gs (g :: acc)

/-- Go `filepath.Clean` (Unix): shortest lexically-equivalent path.
Empty input yields ".", a rooted path keeps its leading '/', and an
all-dropped component list yields "/" (rooted) or "." (relative). -/
def goClean (s : String) : String :=
  match s.data with
  | [] => "."
  | cs =>
    let rooted := goIsAbs s
    let out := cleanComps rooted (splitP (fun c => c == '/') cs) []
    match out with
    | [] => if rooted then "/" else "."
    | _ => (if rooted then "/" else "") ++ String.mk (joinSep out)

/-- Go `filepath.Join(a, b)`: empty elements before the first non-empty one
are dropped; the rest are joined with '/' and cleaned.  All-empty input
yields the empty string. -/
def goJoin2 (a b : String) : String :=
  if a = "" then (if b = "" then "" else goClean b)
  else goClean (a ++ "/" ++ b)

/-- Go `filepath.Join(a, b, c)` (three-element form). -/
def goJoin3 (a b c : String) : String :=
  if a = "" then goJoin2 b c
  else goClean (a ++ "/" ++ b ++ "/" ++ c)

/-- Environment of the process: results of `os.UserHomeDir` and `os.Getwd`;
`none` models the respective call returning an error. -/
structure GoEnv where
  homeDir : Option String
  cwd : Option String

/-- Go `filepath.Abs` as used by the builders (`baseDir, _ = filepath.Abs(baseDir)`,
the error being discarded): an absolute path is cleaned; otherwise it is
joined onto the working directory; if the working directory cannot be
determined, `Abs` returns the empty string together with the error, so the
discarded-error call leaves the empty string. -/
def goAbs (env : GoEnv) (path : String) : String :=
  if goIsAbs path then goClean path
  else
    match env.cwd with
    | none => ""
    | some wd => goJoin2 wd path

/-- A path component that `Clean` passes through unchanged: non-empty, no
slash, and not a dot segment. -/
def normalComp (g : List Char) : Bool :=
  g ≠ [] && !(g.contains '/') && g ≠ ['.'] && g ≠ ['.', '.']

/-- An absolute path already in `Clean` normal form and distinct from "/":
a leading '/' followed by a non-empty sequence of normal components. -/
def goodAbs (p : String) : Bool :=
  match p.data with
  | c :: rest => c == '/' && rest ≠ [] && (splitP (fun x => x == '/') rest).all normalComp
  | [] => false

/-- A relative path all of whose slash-separated components are normal. -/
def goodRel (w : String) : Bool :=
  (splitP (fun c => c == '/') w.data).all normalComp


/-! ### General string primitives used across the embedding -/

/-- Go `unicode.IsSpace` restricted to the characters that can occur between
fields of `systemctl` output; beyond ASCII whitespace Go also treats NEL and
NBSP and the Unicode space category as separators, of which the two
single-rune ones are included here.  (The claims only exercise ASCII.) -/
def goIsSpace (c : Char) : Bool :=
  c == ' ' || c == '\t' || c == '\n' || c == Char.ofNat 0x0B || c == Char.ofNat 0x0C
    || c == '\r' || c == Char.ofNat 0x85 || c == Char.ofNat 0xA0

/-- Go `strings.HasPrefix`: byte-prefix test, which for an ASCII pattern
coincides with the character-prefix test. -/
def strHasPrefix (s pre : String) : Bool :=
  List.isPrefixOf pre.data s.data

/-- Number of UTF-8 bytes encoding the character (Go `len` counts bytes). -/
def charBytes (c : Char) : Nat :=
  if c.toNat < 0x80 then 1
  else if c.toNat < 0x800 then 2
  else if c.toNat < 0x10000 then 3
  else 4

/-- Go `len(s)`: the UTF-8 byte length of the string. -/
def byteLen (s : String) : Nat :=
  (s.data.map charBytes).sum

/-- Go `strings.TrimSpace`: remove leading and trailing whitespace. -/
def goTrimSpace (s : String) : String :=
  String.mk (((s.data.dropWhile goIsSpace).reverse.dropWhile goIsSpace).reverse)

/-! ### Embedding of fmt.Sprintf("%d", n) -/

/-- Decimal digits with explicit fuel (structural recursion, so that the
kernel can evaluate it); `fuel = n + 1` always suffices since `n / 10`
strictly decreases. -/
def natDecAux : Nat → Nat → List Char
  | 0, _ => []
  | f + 1, n =>
    if n < 10 then [Char.ofNat (48 + n)]
    else natDecAux f (n / 10) ++ [Char.ofNat (48 + n % 10)]

/-- Decimal digits of a natural number, most significant first, as produced
by Go's integer formatting. -/
def natDecChars (n : Nat) : List Char :=
  natDecAux (n + 1) n

/-- Go `fmt.Sprintf("%d", n)` for a signed integer: decimal digits with a
leading '-' for negative values. -/
def intDec (i : Int) : String :=
  if i < 0 then "-" ++ String.mk (natDecChars (-i).toNat)
  else String.mk (natDecChars i.toNat)


/-! ### Data model of the unit-file builders

Both Go packages (`system` and `systemd`) declare structurally identical
anonymous section structs; they are shared here.  `ConfigOptions` is the
override record of both packages (Go zero values: empty strings and 0). -/

structure UnitSection where
  description : String
deriving DecidableEq

structure ServiceSection where
  type : String
  user : String
  group : String
  limitNOFILE : Int
  restart : String
  restartSec : String
  standardOutput : String
  standardError : String
  execStart : String
deriving DecidableEq

structure InstallSection where
  wantedBy : String
deriving DecidableEq

structure ConfigOptions where
  type : String
  user : String
  group : String
  limitNOFILE : Int
  restart : String
  restartSec : String
deriving DecidableEq

/-- The Go zero value of `ConfigOptions`, produced by a composite literal
that sets only some fields. -/
def zeroConfigOptions : ConfigOptions :=
  { type := "", user := "", group := "", limitNOFILE := 0, restart := "", restartSec := "" }

/-- The fixed default option set substituted when `opts == nil`. -/
def defaultConfigOptions : ConfigOptions :=
  { type := "simple", user := "root", group := "root", limitNOFILE := 4096,
    restart := "always", restartSec := "5s" }

namespace system

/-- `system.SystemdServiceConfig` (historical package variant, no save path). -/
structure SystemdServiceConfig where
  unit : UnitSection
  service : ServiceSection
  install : InstallSection
deriving DecidableEq

/-- `system.NewServiceConfig`: fill defaults when `opts` is nil, expand a
leading "~/" against the home directory (silently skipped when home
resolution fails), make the base directory absolute (error discarded), and
assemble the configuration. -/
def NewServiceConfig (env : GoEnv) (serviceName baseDir execCommand : String)
    (opts : Option ConfigOptions) : SystemdServiceConfig :=
  let o := opts.getD defaultConfigOptions
  let baseDir1 :=
    if strHasPrefix baseDir "~/" then
      match env.homeDir with
      | some homeDir => goJoin2 homeDir (baseDir.drop 2)
      | none => baseDir
    else baseDir
  let baseDir2 := goAbs env baseDir1
  let logPath := goJoin3 baseDir2 "logs" "service.log"
  let execPath := goJoin2 baseDir2 execCommand
  { unit := { description := serviceName ++ " service" }
    service :=
      { type := o.type
        user := o.user
        group := o.group
        limitNOFILE := o.limitNOFILE
        restart := o.restart
        restartSec := o.restartSec
        standardOutput := "append:" ++ logPath
        standardError := "append:" ++ logPath
        execStart := execPath }
    install := { wantedBy := "multi-user.target" } }

/-- `system.SystemdServiceConfig.ToString`: render the three sections in the
exact `WriteString` order of the source. -/
def SystemdServiceConfig.ToString (c : SystemdServiceConfig) : String :=
  "[Unit]\n"
    ++ ("Description=" ++ c.unit.description ++ "\n\n")
    ++ "[Service]\n"
    ++ ("Type=" ++ c.service.type ++ "\n")
    ++ ("User=" ++ c.service.user ++ "\n")
    ++ ("Group=" ++ c.service.group ++ "\n")
    ++ ("LimitNOFILE=" ++ intDec c.service.limitNOFILE ++ "\n")
    ++ ("Restart=" ++ c.service.restart ++ "\n")
    ++ ("RestartSec=" ++ c.service.restartSec ++ "\n")
    ++ ("StandardOutput=" ++ c.service.standardOutput ++ "\n")
    ++ ("StandardError=" ++ c.service.standardError ++ "\n")
    ++ ("ExecStart=" ++ c.service.execStart ++ "\n\n")
    ++ "[Install]\n"
    ++ ("WantedBy=" ++ c.install.wantedBy ++ "\n")

end system

namespace systemd

/-- `systemd.SystemdServiceConfig` (renamed package variant, carrying the
save path of the unit file). -/
structure SystemdServiceConfig where
  unit : UnitSection
  systemdService : ServiceSection
  install : InstallSection
  path : String
deriving DecidableEq

/-- `systemd.NewSystemdServiceConfig`: identical to the `system` builder
except for additionally computing `Path`. -/
def NewSystemdServiceConfig (env : GoEnv) (serviceName baseDir execCommand : String)
    (opts : Option ConfigOptions) : SystemdServiceConfig :=
  let o := opts.getD defaultConfigOptions
  let baseDir1 :=
    if strHasPrefix baseDir "~/" then
      match env.homeDir with
      | some homeDir => goJoin2 homeDir (baseDir.drop 2)
      | none => baseDir
    else baseDir
  let baseDir2 := goAbs env baseDir1
  let logPath := goJoin3 baseDir2 "logs" "service.log"
  let execPath := goJoin2 baseDir2 execCommand
  let savePath := goJoin2 "/lib/systemd/system" (serviceName ++ ".service")
  { unit := { description := serviceName ++ " service" }
    systemdService :=
      { type := o.type
        user := o.user
        group := o.group
        limitNOFILE := o.limitNOFILE
        restart := o.restart
        restartSec := o.restartSec
        standardOutput := "append:" ++ logPath
        standardError := "append:" ++ logPath
        execStart := execPath }
    install := { wantedBy := "multi-user.target" }
    path := savePath }

/-- `systemd.SystemdServiceConfig.ToString`: same rendering with the section
header "[SystemdService]"; the Go function returns `(string, error)` with the
error always nil, modelled as a pair whose second component is `none`. -/
def SystemdServiceConfig.ToString (c : SystemdServiceConfig) : String × Option String :=
  ("[Unit]\n"
    ++ ("Description=" ++ c.unit.description ++ "\n\n")
    ++ "[SystemdService]\n"
    ++ ("Type=" ++ c.systemdService.type ++ "\n")
    ++ ("User=" ++ c.systemdService.user ++ "\n")
    ++ ("Group=" ++ c.systemdService.group ++ "\n")
    ++ ("LimitNOFILE=" ++ intDec c.systemdService.limitNOFILE ++ "\n")
    ++ ("Restart=" ++ c.systemdService.restart ++ "\n")
    ++ ("RestartSec=" ++ c.systemdService.restartSec ++ "\n")
    ++ ("StandardOutput=" ++ c.systemdService.standardOutput ++ "\n")
    ++ ("StandardError=" ++ c.systemdService.standardError ++ "\n")
    ++ ("ExecStart=" ++ c.systemdService.execStart ++ "\n\n")
    ++ "[Install]\n"
    ++ ("WantedBy=" ++ c.install.wantedBy ++ "\n"), none)

end systemd

/-! ### Embedding of the POST /service/new handler (main.go)

`c.FormValue` yields "" for a missing field, so a missing and an empty form
field are indistinguishable, exactly as in the handler's checks.
`strings.TrimSpace` is modelled by `String.trim` (identical on ASCII
whitespace).  The Go test `len(path) >= 2 && path[:2] != "~/"` slices bytes,
embedded via `String.utf8ByteSize` and the prefix test against the two
ASCII bytes "~/". -/

/-- Result of `POST /service/new`: HTTP status code and response body. -/
def postServiceNew (env : GoEnv) (name path : String) : Nat × String :=
  if name = "" then (400, "name is required")
  else if path = "" then (400, "path is required")
  else if 2 ≤ byteLen (goTrimSpace path) ∧ ¬ (strHasPrefix (goTrimSpace path) "~/") then
    (400, "path must be absolute, try ~/path/to/service")
  else
    (200,
      (systemd.NewSystemdServiceConfig env "pocketbase" "~/pb"
        "pocketbase serve yourdomain.com"
        (some { zeroConfigOptions with
                  user := "pocketbase", group := "pocketbase" })).ToString.1)

/-! ### Embedding of the service listing (systemd/services.go, and its twin
in the system package)

The external `systemctl` invocation is I/O; the embedding takes the captured
combined output text as input and models the parsing/filter loop
(`GetSystemDServices`).  `bufio.ScanLines` splits on '\n', drops one
trailing '\r' per line, and emits no token for the empty rest after a final
newline. -/

structure Service where
  name : String
  unit : String
  activeState : String
  subState : String
  loadState : String
  path : String
deriving DecidableEq

/-- One token of `bufio.ScanLines`: the line with a single trailing
carriage return removed. -/
def dropCR (cs : List Char) : List Char :=
  if cs.getLast? = some '\r' then cs.dropLast else cs

/-- The lines that `bufio.Scanner` with `bufio.ScanLines` yields on the
given text. -/
def goScanLines (s : String) : List String :=
  let groups := splitP (fun c => c == '\n') s.data
  let groups2 := if groups.getLast? = some [] then groups.dropLast else groups
  groups2.map (fun cs => String.mk (dropCR cs))

/-- Go `strings.Fields`: maximal runs of non-space characters. -/
def goFields (s : String) : List String :=
  ((splitP goIsSpace s.data).filter (fun g => g ≠ [])).map String.mk

/-- The body of the scan loop of `GetSystemDServices` for one line:
`none` when the line is skipped (header line, fewer than 3 fields, or name
not containing a non-empty filter), otherwise the constructed record. -/
def processLine (partialName : String) (line : String) : Option Service :=
  if strHasPrefix line "UNIT" then none
  else if (goFields line).length < 3 then none
  else if partialName ≠ "" ∧ ¬ (partialName.data <:+: ((goFields line).getD 0 "").data) then
    none
  else
    some
      { name := (goFields line).getD 0 ""
        unit := (goFields line).getD 1 ""
        activeState := (goFields line).getD 2 ""
        subState := if 3 < (goFields line).length then (goFields line).getD 3 "" else ""
        loadState := if 4 < (goFields line).length then (goFields line).getD 4 "" else ""
        path := "/etc/systemd/system/" ++ (goFields line).getD 0 "" ++ ".service" }

/-- The parsing/filter loop over a list of scanned lines. -/
def parseServices (partialName : String) (lines : List String) : List Service :=
  lines.filterMap (processLine partialName)

/-- `GetSystemDServices`, given the captured combined output of the
`systemctl list-units` invocation. -/
def GetSystemDServices (output : String) (partialName : String) : List Service :=
  parseServices partialName (goScanLines output)

/-! ### Vocabulary for the claims -/

/-- A string free of newline characters (the Go source never introduces a
newline into a field, but arbitrary field values may contain them). -/
abbrev noNewline (s : String) : Prop := ∀ c ∈ s.data, (c == '\n') = false

/-- The physical lines of a rendered unit file (boundaries at every '\n'). -/
def unitFileLines (s : String) : List (List Char) :=
  splitP (fun c => c == '\n') s.data

/-- The line carries the given key: it begins with "key=". -/
def keyLine (key : String) (l : List Char) : Bool :=
  List.isPrefixOf (key.data ++ ['=']) l

/-- Number of lines of the rendered text carrying the given key. -/
def countKeyLines (key : String) (s : String) : Nat :=
  ((unitFileLines s).filter (keyLine key)).length

/-- Structural well-formedness of a rendered unit file with the given
Service-section header line: exactly the three sections in order Unit,
header, Install; every expected key on exactly its one line of its section;
exactly one blank line between consecutive sections; one trailing
newline. -/
def structuredOk (header : String) (s : String) : Bool :=
  match unitFileLines s with
  | [l0, l1, l2, l3, l4, l5, l6, l7, l8, l9, l10, l11, l12, l13, l14, l15, l16] =>
    l0 == "[Unit]".data && keyLine "Description" l1 && l2 == ([] : List Char) &&
    l3 == header.data && keyLine "Type" l4 && keyLine "User" l5 &&
    keyLine "Group" l6 && keyLine "LimitNOFILE" l7 && keyLine "Restart" l8 &&
    keyLine "RestartSec" l9 && keyLine "StandardOutput" l10 &&
    keyLine "StandardError" l11 && keyLine "ExecStart" l12 &&
    l13 == ([] : List Char) && l14 == "[Install]".data && keyLine "WantedBy" l15 &&
    l16 == ([] : List Char)
  | _ => false

/-- Text of the Unit section up to (excluding) the Service section header. -/
def unitPartStr (u : UnitSection) : String :=
  "[Unit]\n" ++ ("Description=" ++ u.description ++ "\n\n")

/-- Text from the newline after the Service section header to the end. -/
def sectionTailStr (sv : ServiceSection) (ins : InstallSection) : String :=
  "\n"
    ++ ("Type=" ++ sv.type ++ "\n")
    ++ ("User=" ++ sv.user ++ "\n")
    ++ ("Group=" ++ sv.group ++ "\n")
    ++ ("LimitNOFILE=" ++ intDec sv.limitNOFILE ++ "\n")
    ++ ("Restart=" ++ sv.restart ++ "\n")
    ++ ("RestartSec=" ++ sv.restartSec ++ "\n")
    ++ ("StandardOutput=" ++ sv.standardOutput ++ "\n")
    ++ ("StandardError=" ++ sv.standardError ++ "\n")
    ++ ("ExecStart=" ++ sv.execStart ++ "\n\n")
    ++ "[Install]\n"
    ++ ("WantedBy=" ++ ins.wantedBy ++ "\n")

/-- The ten string fields the spec's non-emptiness invariant ranges over. -/
def allStringFieldsNonEmpty (u : UnitSection) (sv : ServiceSection)
    (ins : InstallSection) : Bool :=
  u.description != "" && sv.type != "" && sv.user != "" && sv.group != "" &&
  sv.restart != "" && sv.restartSec != "" && sv.standardOutput != "" &&
  sv.standardError != "" && sv.execStart != "" && ins.wantedBy != ""

/-- All string fields of a configuration are newline-free (the builders
never introduce newlines themselves, but field values are arbitrary). -/
abbrev configNoNewlines (u : UnitSection) (sv : ServiceSection)
    (ins : InstallSection) : Prop :=
  noNewline u.description ∧ noNewline sv.type ∧ noNewline sv.user ∧
  noNewline sv.group ∧ noNewline sv.restart ∧ noNewline sv.restartSec ∧
  noNewline sv.standardOutput ∧ noNewline sv.standardError ∧
  noNewline sv.execStart ∧ noNewline ins.wantedBy

/-- A concrete environment for closed counterexamples and witnesses:
home directory /root, working directory /srv. -/
def env0 : GoEnv := { homeDir := some "/root", cwd := some "/srv" }

/-- The override record of the hardcoded example call in the handlers
(`&ConfigOptions{User: "pocketbase", Group: "pocketbase"}`). -/
def pbOpts : ConfigOptions :=
  { zeroConfigOptions with user := "pocketbase", group := "pocketbase" }


/-! ### Helper lemmas -/

theorem splitP_ne_nil (p : Char → Bool) (cs : List Char) : splitP p cs ≠ [] := by
  cases cs with
  | nil => simp [splitP]
  | cons c cs =>
    simp only [splitP]
    split
    · simp
    · split <;> simp

theorem splitP_append_sep (p : Char → Bool) (c : Char) (hc : p c = true)
    (xs ys : List Char) :
    splitP p (xs ++ c :: ys) = splitP p xs ++ splitP p ys := by
  induction xs with
  | nil => simp [splitP, hc]
  | cons x xs ih =>
    simp only [List.cons_append, splitP, List.append_eq]
    by_cases hx : p x
    · simp [hx, ih]
    · simp only [hx, if_false]
      have h1 := splitP_ne_nil p xs
      cases hxs : splitP p xs with
      | nil => exact absurd hxs h1
      | cons g gs => rw [ih, hxs]; simp

theorem splitP_of_all_not (p : Char → Bool) (xs : List Char)
    (h : ∀ a ∈ xs, p a = false) : splitP p xs = [xs] := by
  induction xs with
  | nil => simp [splitP]
  | cons x xs ih =>
    have hx : p x = false := h x (by simp)
    have hrest : ∀ a ∈ xs, p a = false := fun a ha => h a (by simp [ha])
    simp [splitP, hx, ih hrest]

theorem joinSep_splitP (cs : List Char) :
    joinSep (splitP (fun c => c == '/') cs) = cs := by
  induction cs with
  | nil => simp [splitP, joinSep]
  | cons c cs ih =>
    simp only [splitP]
    by_cases hc : (c == '/') = true
    · have hc' : c = '/' := by simpa using hc
      subst hc'
      simp only [hc, if_true]
      cases hs : splitP (fun c => c == '/') cs with
      | nil => exact absurd hs (splitP_ne_nil _ cs)
      | cons g gs =>
        rw [hs] at ih
        simp [joinSep, ← ih]
    · simp only [hc, if_false]
      cases hs : splitP (fun c => c == '/') cs with
      | nil => exact absurd hs (splitP_ne_nil _ cs)
      | cons g gs =>
        rw [hs] at ih
        cases gs with
        | nil => simp_all [joinSep]
        | cons g2 gs2 => simp_all [joinSep]

theorem cleanComps_of_all_normal (rooted : Bool) (gs : List (List Char))
    (h : gs.all normalComp = true) (acc : List (List Char)) :
    cleanComps rooted gs acc = acc.reverse ++ gs := by
  induction gs generalizing acc with
  | nil => simp [cleanComps]
  | cons g gs ih =>
    simp only [List.all_cons, Bool.and_eq_true] at h
    obtain ⟨hg, hgs⟩ := h
    simp only [normalComp, Bool.and_eq_true, decide_eq_true_eq, Bool.not_eq_true'] at hg
    simp only [cleanComps]
    rw [if_neg (by tauto), if_neg (by tauto), ih hgs]
    simp

theorem string_data_append (a b : String) : (a ++ b).data = a.data ++ b.data := by
  cases a; cases b; rfl

theorem string_mk_data (s : String) : String.mk s.data = s := by
  cases s; rfl

/-- A path in `goodAbs` form is a fixed point of `filepath.Clean`. -/
theorem goClean_of_goodAbs (p : String) (hp : goodAbs p = true) : goClean p = p := by
  obtain ⟨pd⟩ := p
  cases pd with
  | nil => simp [goodAbs] at hp
  | cons c rest =>
    simp only [goodAbs, Bool.and_eq_true, beq_iff_eq, decide_eq_true_eq,
      ne_eq, Bool.not_eq_true', decide_eq_false_iff_not] at hp
    obtain ⟨⟨hc, hne⟩, hall⟩ := hp
    subst hc
    simp only [goClean]
    have habs : goIsAbs (String.mk ('/' :: rest)) = true := rfl
    have hsplit : splitP (fun c => c == '/') ('/' :: rest)
        = [] :: splitP (fun c => c == '/') rest := by
      simp [splitP]
    simp only [habs, hsplit]
    have hstep : cleanComps true ([] :: splitP (fun c => c == '/') rest) []
        = splitP (fun c => c == '/') rest := by
      simp only [cleanComps, if_pos (Or.inl rfl)]
      exact cleanComps_of_all_normal true _ hall []
    rw [hstep]
    have hne' := splitP_ne_nil (fun c => c == '/') rest
    cases hsr : splitP (fun c => c == '/') rest with
    | nil => exact absurd hsr hne'
    | cons g gs =>
      have hjoin : joinSep (g :: gs) = rest := by
        rw [← hsr]; exact joinSep_splitP rest
      simp only [if_true]
      rw [hjoin]
      cases rest with
      | nil => simp at hne
      | cons r rs => rfl

/-- Extending a `goodAbs` path with a slash and a `goodRel` suffix stays in
`goodAbs` form. -/
theorem goodAbs_append (p w : String) (hp : goodAbs p = true)
    (hw : goodRel w = true) : goodAbs (p ++ "/" ++ w) = true := by
  obtain ⟨pd⟩ := p
  cases pd with
  | nil => simp [goodAbs] at hp
  | cons c rest =>
    simp only [goodAbs, Bool.and_eq_true, beq_iff_eq, decide_eq_true_eq,
      ne_eq, Bool.not_eq_true', decide_eq_false_iff_not] at hp
    obtain ⟨⟨hc, hne⟩, hall⟩ := hp
    subst hc
    have hdata : (String.mk ('/' :: rest) ++ "/" ++ w).data
        = '/' :: (rest ++ '/' :: w.data) := by
      rw [string_data_append, string_data_append]
      simp
    simp only [goodAbs, hdata, Bool.and_eq_true, beq_iff_eq, decide_eq_true_eq,
      ne_eq, Bool.not_eq_true', decide_eq_false_iff_not]
    refine ⟨by simp, ?_⟩
    rw [splitP_append_sep (fun x => x == '/') '/' (by simp) rest w.data]
    rw [List.all_append]
    simp only [goodRel] at hw
    simp [hall, hw]

/-- Extending a `goodAbs` path with a `goodRel` suffix is again a fixed point
of `Clean`; this is the equation satisfying "path-joined, not concatenated"
claims about computed paths. -/
theorem goClean_append (p w : String) (hp : goodAbs p = true)
    (hw : goodRel w = true) : goClean (p ++ "/" ++ w) = p ++ "/" ++ w :=
  goClean_of_goodAbs _ (goodAbs_append p w hp hw)

/-- Every group that `cleanComps` emits is non-empty (empty groups are
dropped, and only non-empty groups are ever pushed). -/
theorem cleanComps_mem_ne_nil (rooted : Bool) (gs : List (List Char)) :
    ∀ acc, (∀ a ∈ acc, a ≠ []) →
    ∀ a ∈ cleanComps rooted gs acc, a ≠ [] := by
  induction gs with
  | nil =>
    intro acc hacc a ha
    simp only [cleanComps, List.mem_reverse] at ha
    exact hacc a ha
  | cons g gs ih =>
    intro acc hacc
    simp only [cleanComps]
    split
    · exact ih acc hacc
    · rename_i hgne
      split
      · split
        · split
          · exact ih [] (by simp)
          · refine ih [['.', '.']] ?_
            intro a ha
            simp only [List.mem_singleton] at ha
            simp [ha]
        · rename_i top rest
          split
          · refine ih _ ?_
            intro a ha
            simp only [List.mem_cons] at ha
            rcases ha with h | h | h
            · simp [h]
            · subst h; exact hacc a (by simp)
            · exact hacc a (by simp [h])
          · refine ih _ ?_
            intro a ha
            exact hacc a (by simp [ha])
      · refine ih _ ?_
        intro a ha
        simp only [List.mem_cons] at ha
        rcases ha with h | h
        · subst h
          intro hnil
          exact hgne (Or.inl hnil)
        · exact hacc a h

/-- `filepath.Clean` never returns the empty string. -/
theorem goClean_ne_empty (s : String) : goClean s ≠ "" := by
  simp only [goClean]
  cases hd : s.data with
  | nil => simp
  | cons c cs =>
    simp only
    cases hout : cleanComps (goIsAbs s) (splitP (fun c => c == '/') (c :: cs)) [] with
    | nil =>
      cases goIsAbs s <;> simp
    | cons g gs =>
      have hg : g ≠ [] := by
        refine cleanComps_mem_ne_nil (goIsAbs s) (splitP (fun c => c == '/') (c :: cs))
          [] (by simp) g ?_
        rw [hout]; simp
      have hjoin : joinSep (g :: gs) ≠ [] := by
        cases gs with
        | nil => simpa [joinSep] using hg
        | cons g2 gs2 =>
          simp only [joinSep, ne_eq, List.append_eq_nil]
          intro h
          exact absurd h.1 hg
      simp only
      intro hcontra
      have hdat := congrArg String.data hcontra
      rw [string_data_append] at hdat
      cases goIsAbs s with
      | false => simp_all
      | true => simp_all

theorem natDecAux_no_newline (fuel : Nat) :
    ∀ n, ∀ c ∈ natDecAux fuel n, (c == '\n') = false := by
  have key : ∀ d, d < 10 → (Char.ofNat (48 + d) == '\n') = false := by decide
  induction fuel with
  | zero => intro n; simp [natDecAux]
  | succ f ih =>
    intro n
    simp only [natDecAux]
    split
    · rename_i h
      intro c hc
      simp only [List.mem_singleton] at hc
      subst hc
      exact key n h
    · intro c hc
      simp only [List.mem_append, List.mem_singleton] at hc
      rcases hc with hc | hc
      · exact ih (n / 10) c hc
      · subst hc
        exact key (n % 10) (Nat.mod_lt _ (by omega))

theorem natDecChars_no_newline (n : Nat) :
    ∀ c ∈ natDecChars n, (c == '\n') = false :=
  natDecAux_no_newline (n + 1) n

theorem intDec_no_newline (i : Int) : ∀ c ∈ (intDec i).data, (c == '\n') = false := by
  simp only [intDec]
  split
  · rw [string_data_append]
    intro c hc
    simp only [List.mem_append] at hc
    rcases hc with hc | hc
    · simp only [show ("-" : String).data = ['-'] from rfl, List.mem_singleton] at hc
      subst hc; decide
    · exact natDecChars_no_newline _ c hc
  · intro c hc
    exact natDecChars_no_newline _ c hc

theorem string_ext_data {a b : String} (h : a.data = b.data) : a = b := by
  cases a; cases b; simp only at h; rw [h]

theorem string_append_assoc (a b c : String) : a ++ b ++ c = a ++ (b ++ c) := by
  apply string_ext_data
  simp [string_data_append, List.append_assoc]

theorem string_eq_empty_iff (s : String) : s = "" ↔ s.data = [] := by
  constructor
  · intro h; subst h; rfl
  · intro h; exact string_ext_data h

theorem append_ne_empty_of_right (a b : String) (hb : b ≠ "") : a ++ b ≠ "" := by
  intro h
  rw [string_eq_empty_iff, string_data_append, List.append_eq_nil] at h
  exact hb (string_ext_data h.2)

theorem append_ne_empty_of_left (a b : String) (ha : a ≠ "") : a ++ b ≠ "" := by
  intro h
  rw [string_eq_empty_iff, string_data_append, List.append_eq_nil] at h
  exact ha (string_ext_data h.1)

theorem goJoin2_ne_empty_of_left (a b : String) (ha : a ≠ "") : goJoin2 a b ≠ "" := by
  rw [goJoin2, if_neg ha]
  exact goClean_ne_empty _

theorem goAbs_ne_empty (env : GoEnv) (wd : String) (hwd : env.cwd = some wd)
    (hne : wd ≠ "") (path : String) : goAbs env path ≠ "" := by
  rw [goAbs]
  split
  · exact goClean_ne_empty _
  · rw [hwd]
    exact goJoin2_ne_empty_of_left wd path hne

/-- C6: Build with absent overrides (opts = nil) yields serviceType
"simple", user "root", group "root", fileDescriptorLimit 4096,
restartPolicy "always" and restartDelay "5s", in both package variants. -/
theorem C6_build_defaults_without_overrides (env : GoEnv)
    (serviceName baseDir execCommand : String) :
    (system.NewServiceConfig env serviceName baseDir execCommand none).service.type
        = "simple" ∧
    (system.NewServiceConfig env serviceName baseDir execCommand none).service.user
        = "root" ∧
    (system.NewServiceConfig env serviceName baseDir execCommand none).service.group
        = "root" ∧
    (system.NewServiceConfig env serviceName baseDir execCommand none).service.limitNOFILE
        = 4096 ∧
    (system.NewServiceConfig env serviceName baseDir execCommand none).service.restart
        = "always" ∧
    (system.NewServiceConfig env serviceName baseDir execCommand none).service.restartSec
        = "5s" ∧
    (systemd.NewSystemdServiceConfig env serviceName baseDir execCommand none).systemdService.type
        = "simple" ∧
    (systemd.NewSystemdServiceConfig env serviceName baseDir execCommand none).systemdService.user
        = "root" ∧
    (systemd.NewSystemdServiceConfig env serviceName baseDir execCommand none).systemdService.group
        = "root" ∧
    (systemd.NewSystemdServiceConfig env serviceName baseDir execCommand none).systemdService.limitNOFILE
        = 4096 ∧
    (systemd.NewSystemdServiceConfig env serviceName baseDir execCommand none).systemdService.restart
        = "always" ∧
    (systemd.NewSystemdServiceConfig env serviceName baseDir execCommand none).systemdService.restartSec
        = "5s" :=
  ⟨rfl, rfl, rfl, rfl, rfl, rfl, rfl, rfl, rfl, rfl, rfl, rfl⟩

/-- C2 counterexample: with overrides present but partially set — exactly the
call the handlers make, User and Group "pocketbase" and every other override
field left at its zero value — the built configuration has empty string
fields (serviceType, restartPolicy, restartDelay are all ""); the defaults do
not fill unset override fields. -/
theorem C2_counterexample_partial_overrides :
    allStringFieldsNonEmpty
      (system.NewServiceConfig env0 "pocketbase" "~/pb"
        "pocketbase serve yourdomain.com" (some pbOpts)).unit
      (system.NewServiceConfig env0 "pocketbase" "~/pb"
        "pocketbase serve yourdomain.com" (some pbOpts)).service
      (system.NewServiceConfig env0 "pocketbase" "~/pb"
        "pocketbase serve yourdomain.com" (some pbOpts)).install = false ∧
    (system.NewServiceConfig env0 "pocketbase" "~/pb"
      "pocketbase serve yourdomain.com" (some pbOpts)).service.type = "" := by
  decide

/-- C2 (amended): when overrides are absent, every string field of the built
configuration is non-empty, in both package variants, provided the working
directory resolves (os.Getwd returns an absolute, hence non-empty, path on
success); when overrides are present their string fields are copied verbatim
and may be empty. -/
theorem C2_nonempty_fields_without_overrides (env : GoEnv) (wd : String)
    (hwd : env.cwd = some wd) (hne : wd ≠ "")
    (serviceName baseDir execCommand : String) :
    allStringFieldsNonEmpty
      (system.NewServiceConfig env serviceName baseDir execCommand none).unit
      (system.NewServiceConfig env serviceName baseDir execCommand none).service
      (system.NewServiceConfig env serviceName baseDir execCommand none).install = true ∧
    allStringFieldsNonEmpty
      (systemd.NewSystemdServiceConfig env serviceName baseDir execCommand none).unit
      (systemd.NewSystemdServiceConfig env serviceName baseDir execCommand none).systemdService
      (systemd.NewSystemdServiceConfig env serviceName baseDir execCommand none).install = true := by
  have hbase : goAbs env (if strHasPrefix baseDir "~/" then
      match env.homeDir with
      | some homeDir => goJoin2 homeDir (baseDir.drop 2)
      | none => baseDir
      else baseDir) ≠ "" := goAbs_ne_empty env wd hwd hne _
  have hexec : goJoin2 (goAbs env (if strHasPrefix baseDir "~/" then
      match env.homeDir with
      | some homeDir => goJoin2 homeDir (baseDir.drop 2)
      | none => baseDir
      else baseDir)) execCommand ≠ "" :=
    goJoin2_ne_empty_of_left _ _ hbase
  have hdesc : serviceName ++ " service" ≠ "" :=
    append_ne_empty_of_right _ _ (by decide)
  constructor <;>
  · simp only [system.NewServiceConfig, systemd.NewSystemdServiceConfig,
      allStringFieldsNonEmpty, Bool.and_eq_true, bne_iff_ne, ne_eq]
    refine ⟨⟨⟨⟨⟨⟨⟨⟨⟨?_, ?_⟩, ?_⟩, ?_⟩, ?_⟩, ?_⟩, ?_⟩, ?_⟩, ?_⟩, ?_⟩ <;>
      first
        | exact hdesc
        | exact hexec
        | exact append_ne_empty_of_left "append:" _ (by decide)
        | decide

/-- C2 witness: the amended non-emptiness theorem applied at a concrete
environment and input. -/
theorem C2_nonempty_fields_witness :
    allStringFieldsNonEmpty
      (system.NewServiceConfig env0 "pocketbase" "~/pb"
        "pocketbase serve yourdomain.com" none).unit
      (system.NewServiceConfig env0 "pocketbase" "~/pb"
        "pocketbase serve yourdomain.com" none).service
      (system.NewServiceConfig env0 "pocketbase" "~/pb"
        "pocketbase serve yourdomain.com" none).install = true ∧
    allStringFieldsNonEmpty
      (systemd.NewSystemdServiceConfig env0 "pocketbase" "~/pb"
        "pocketbase serve yourdomain.com" none).unit
      (systemd.NewSystemdServiceConfig env0 "pocketbase" "~/pb"
        "pocketbase serve yourdomain.com" none).systemdService
      (systemd.NewSystemdServiceConfig env0 "pocketbase" "~/pb"
        "pocketbase serve yourdomain.com" none).install = true :=
  C2_nonempty_fields_without_overrides env0 "/srv" rfl (by decide)
    "pocketbase" "~/pb" "pocketbase serve yourdomain.com"

/-- C1 counterexample: the claim that every request whose trimmed path does
not start with "~/" is rejected with 400 is false: with name "x" and path
"a" (trimmed "a", which does not start with "~/"), the handler answers 200,
because the source only performs the prefix check when the trimmed path is
at least 2 bytes long. -/
theorem C1_counterexample_short_path :
    strHasPrefix (goTrimSpace "a") "~/" = false ∧
    (postServiceNew env0 "x" "a").1 = 200 := by
  decide

/-- C1 (amended): POST /service/new returns 400 when the name field is
empty; when the name is set but the path field is empty; and when the
trimmed path is at least 2 bytes long and does not start with "~/"
(trimmed paths shorter than 2 bytes bypass the prefix check). -/
theorem C1_post_validation (env : GoEnv) (name path : String) :
    (name = "" → (postServiceNew env name path).1 = 400) ∧
    (name ≠ "" → path = "" → (postServiceNew env name path).1 = 400) ∧
    (name ≠ "" → path ≠ "" → 2 ≤ byteLen (goTrimSpace path) →
      strHasPrefix (goTrimSpace path) "~/" = false →
      (postServiceNew env name path).1 = 400) := by
  refine ⟨?_, ?_, ?_⟩
  · intro h
    simp [postServiceNew, h]
  · intro h1 h2
    simp [postServiceNew, h1, h2]
  · intro h1 h2 h3 h4
    rw [postServiceNew, if_neg h1, if_neg h2, if_pos]
    exact ⟨h3, by simp [h4]⟩

/-- C1 witness: the three rejection branches exercised at concrete inputs. -/
theorem C1_post_validation_witness :
    (postServiceNew env0 "" "whatever").1 = 400 ∧
    (postServiceNew env0 "x" "").1 = 400 ∧
    (postServiceNew env0 "x" "/abs").1 = 400 :=
  ⟨(C1_post_validation env0 "" "whatever").1 rfl,
   (C1_post_validation env0 "x" "").2.1 (by decide) rfl,
   (C1_post_validation env0 "x" "/abs").2.2 (by decide) (by decide)
     (by decide) (by decide)⟩

/-- C4: every request that passes validation receives the same response
body, namely the serialization of the hardcoded example configuration
(pocketbase, base directory ~/pb, exec command "pocketbase serve
yourdomain.com", User and Group overridden to "pocketbase"); the supplied
name and path have no influence. -/
theorem C4_constant_success_body (env : GoEnv) (n1 p1 n2 p2 : String)
    (h1 : (postServiceNew env n1 p1).1 = 200)
    (h2 : (postServiceNew env n2 p2).1 = 200) :
    (postServiceNew env n1 p1).2 = (postServiceNew env n2 p2).2 ∧
    (postServiceNew env n1 p1).2 =
      (systemd.NewSystemdServiceConfig env "pocketbase" "~/pb"
        "pocketbase serve yourdomain.com" (some pbOpts)).ToString.1 := by
  have key : ∀ n p : String, (postServiceNew env n p).1 = 200 →
      (postServiceNew env n p).2 =
        (systemd.NewSystemdServiceConfig env "pocketbase" "~/pb"
          "pocketbase serve yourdomain.com" (some pbOpts)).ToString.1 := by
    intro n p h
    rw [postServiceNew] at h ⊢
    split at h
    · simp at h
    · split at h
      · simp at h
      · split at h
        · simp at h
        · rename_i hn hp hpre
          rw [if_neg hn, if_neg hp, if_neg hpre]
          rfl
  exact ⟨(key n1 p1 h1).trans (key n2 p2 h2).symm, key n1 p1 h1⟩

/-- C4 witness: two concrete validated requests with different names and
paths receive the identical hardcoded body. -/
theorem C4_constant_success_body_witness :
    (postServiceNew env0 "alpha" "~/a").2 = (postServiceNew env0 "beta" "~/b").2 ∧
    (postServiceNew env0 "alpha" "~/a").2 =
      (systemd.NewSystemdServiceConfig env0 "pocketbase" "~/pb"
        "pocketbase serve yourdomain.com" (some pbOpts)).ToString.1 :=
  C4_constant_success_body env0 "alpha" "~/a" "beta" "~/b" (by decide) (by decide)

theorem processLine_eq_bind (f line : String) :
    processLine f line = (processLine "" line).bind
      (fun r => if f.data <:+: r.name.data then some r else none) := by
  rw [processLine, processLine]
  split
  · rfl
  · split
    · rfl
    · have hememp : ¬(("" : String) ≠ "" ∧
          ¬(("" : String).data <:+: ((goFields line).getD 0 "").data)) := by
        rintro ⟨hc, h⟩
        exact hc rfl
      rw [if_neg hememp]
      by_cases hin : f.data <:+: ((goFields line).getD 0 "").data
      · rw [if_neg (fun hcon => hcon.2 hin)]
        exact (if_pos hin).symm
      · have hf : f ≠ "" := by
          intro hfe
          subst hfe
          exact hin List.nil_infix
        rw [if_pos ⟨hf, hin⟩]
        exact (if_neg hin).symm

theorem filterMap_bind_filter {α β : Type} (g : α → Option β) (p : β → Prop)
    [DecidablePred p] (ls : List α) :
    List.filterMap (fun a => (g a).bind (fun b => if p b then some b else none)) ls
      = (List.filterMap g ls).filter (fun b => decide (p b)) := by
  induction ls with
  | nil => simp
  | cons l ls ih =>
    simp only [List.filterMap_cons]
    cases hg : g l with
    | none => simpa using ih
    | some r =>
      by_cases hp : p r
      · simp [hg, hp, ih, List.filter_cons]
      · simp [hg, hp, ih, List.filter_cons]

/-- C7: listing with a filter returns exactly the parsed records whose name
contains the filter as a substring; the empty filter (whose byte sequence is
an infix of every name) returns all parsed records. -/
theorem C7_filter_exactly_matching (output f : String) :
    GetSystemDServices output f =
      (GetSystemDServices output "").filter
        (fun r => decide (f.data <:+: r.name.data)) := by
  rw [GetSystemDServices, GetSystemDServices, parseServices, parseServices]
  have hfun : processLine f = fun line => (processLine "" line).bind
      (fun r => if f.data <:+: r.name.data then some r else none) :=
    funext (processLine_eq_bind f)
  rw [hfun, filterMap_bind_filter]

/-- C8 (helper shape used in its statement): the record built from a
retained line. -/
theorem C8_record_from_fields (f line : String)
    (hhdr : strHasPrefix line "UNIT" = false)
    (hlen : 3 ≤ (goFields line).length)
    (hfl : f = "" ∨ f.data <:+: ((goFields line).getD 0 "").data) :
    processLine f line = some
      { name := (goFields line).getD 0 ""
        unit := (goFields line).getD 1 ""
        activeState := (goFields line).getD 2 ""
        subState := if 3 < (goFields line).length then (goFields line).getD 3 "" else ""
        loadState := if 4 < (goFields line).length then (goFields line).getD 4 "" else ""
        path := "/etc/systemd/system/" ++ (goFields line).getD 0 "" ++ ".service" } := by
  rw [processLine]
  rw [if_neg (by simp [hhdr])]
  rw [if_neg (by omega)]
  rw [if_neg]
  rintro ⟨hf, hnin⟩
  rcases hfl with h | h
  · exact hf h
  · exact hnin h

/-- C8 witness: a concrete five-field line parsed into the expected record,
including the derived path. -/
theorem C8_record_from_fields_witness :
    processLine "" "pb.service loaded active running loadedst extra" = some
      { name := "pb.service", unit := "loaded", activeState := "active",
        subState := "running", loadState := "loadedst",
        path := "/etc/systemd/system/pb.service.service" } := by
  have h := C8_record_from_fields "" "pb.service loaded active running loadedst extra"
    (by decide) (by decide) (Or.inl rfl)
  rw [h]
  decide

/-- C9: a header line (prefix "UNIT") or a line with fewer than 3
whitespace-separated fields produces no record, and its presence anywhere in
the line sequence does not change the listing result (it is skipped, the
loop continues). -/
theorem C9_skip_bad_lines (f line : String) (pre post : List String)
    (h : strHasPrefix line "UNIT" = true ∨ (goFields line).length < 3) :
    processLine f line = none ∧
    parseServices f (pre ++ line :: post) = parseServices f (pre ++ post) := by
  have hnone : processLine f line = none := by
    rw [processLine]
    by_cases hhdr : strHasPrefix line "UNIT" = true
    · rw [if_pos hhdr]
    · rw [if_neg hhdr]
      rcases h with h | h
      · exact absurd h hhdr
      · rw [if_pos h]
  refine ⟨hnone, ?_⟩
  rw [parseServices, parseServices, List.filterMap_append, List.filterMap_append,
    List.filterMap_cons, hnone]

/-- C9 witness: the header line of real systemctl output and a two-field
line are both dropped without disturbing the surrounding records. -/
theorem C9_skip_bad_lines_witness :
    processLine "" "UNIT LOAD ACTIVE SUB DESCRIPTION" = none ∧
    parseServices "" (["a.service loaded active"] ++
        "UNIT LOAD ACTIVE SUB DESCRIPTION" :: ["b.service loaded active"]) =
      parseServices "" (["a.service loaded active"] ++ ["b.service loaded active"]) :=
  C9_skip_bad_lines "" "UNIT LOAD ACTIVE SUB DESCRIPTION"
    ["a.service loaded active"] ["b.service loaded active"] (Or.inl (by decide))

theorem goodAbs_ne_empty (p : String) (hp : goodAbs p = true) : p ≠ "" := by
  intro h
  subst h
  simp [goodAbs] at hp

theorem goodAbs_isAbs (p : String) (hp : goodAbs p = true) : goIsAbs p = true := by
  obtain ⟨pd⟩ := p
  cases pd with
  | nil => simp [goodAbs] at hp
  | cons c rest =>
    simp only [goodAbs, Bool.and_eq_true, beq_iff_eq] at hp
    obtain ⟨⟨hc, h⟩, h'⟩ := hp
    simp [goIsAbs, hc]

/-- C10: with the home directory resolving to a normal-form absolute path
<home>, building with serviceName "pocketbase", baseDirectory "~/pb" and
execCommand "pocketbase serve x.com" (any overrides) yields
execPath = <home>/pb/pocketbase serve x.com (path-joined) and stdout/stderr
targets append:<home>/pb/logs/service.log. -/
theorem C10_exec_and_log_paths (env : GoEnv) (home : String)
    (hh : env.homeDir = some home) (hgood : goodAbs home = true)
    (opts : Option ConfigOptions) :
    (system.NewServiceConfig env "pocketbase" "~/pb"
        "pocketbase serve x.com" opts).service.execStart
      = home ++ "/pb/pocketbase serve x.com" ∧
    (system.NewServiceConfig env "pocketbase" "~/pb"
        "pocketbase serve x.com" opts).service.standardOutput
      = "append:" ++ (home ++ "/pb/logs/service.log") ∧
    (system.NewServiceConfig env "pocketbase" "~/pb"
        "pocketbase serve x.com" opts).service.standardError
      = "append:" ++ (home ++ "/pb/logs/service.log") := by
  have hne : home ≠ "" := goodAbs_ne_empty home hgood
  have hpb : goodRel "pb" = true := by decide
  have hgood2 : goodAbs (home ++ "/" ++ "pb") = true := goodAbs_append home "pb" hgood hpb
  have hne2 : home ++ "/" ++ "pb" ≠ "" := goodAbs_ne_empty _ hgood2
  have h1 : goJoin2 home (("~/pb" : String).drop 2) = home ++ "/" ++ "pb" := by
    have hdrop : ("~/pb" : String).drop 2 = "pb" := by decide
    rw [hdrop, goJoin2, if_neg hne]
    exact goClean_append home "pb" hgood hpb
  have habs : goAbs env (home ++ "/" ++ "pb") = home ++ "/" ++ "pb" := by
    rw [goAbs, if_pos (goodAbs_isAbs _ hgood2)]
    exact goClean_of_goodAbs _ hgood2
  have hshape : (home ++ "/" ++ "pb") ++ "/" ++ "logs" ++ "/" ++ "service.log"
      = (home ++ "/" ++ "pb") ++ "/" ++ "logs/service.log" := by
    simp only [string_append_assoc]
    congr 1
  have hlog : goJoin3 (home ++ "/" ++ "pb") "logs" "service.log"
      = home ++ "/" ++ "pb" ++ "/" ++ "logs/service.log" := by
    rw [goJoin3, if_neg hne2, hshape]
    exact goClean_append _ "logs/service.log" hgood2 (by decide)
  have hexec : goJoin2 (home ++ "/" ++ "pb") "pocketbase serve x.com"
      = home ++ "/" ++ "pb" ++ "/" ++ "pocketbase serve x.com" := by
    rw [goJoin2, if_neg hne2]
    exact goClean_append _ "pocketbase serve x.com" hgood2 (by decide)
  have hpre : strHasPrefix "~/pb" "~/" = true := by decide
  refine ⟨?_, ?_, ?_⟩ <;>
  · simp only [system.NewServiceConfig, hpre, if_true, hh, h1, habs, hlog, hexec]
    simp only [string_append_assoc]
    congr 1

/-- C10 witness: the theorem applied at home directory /home/me. -/
theorem C10_exec_and_log_paths_witness :
    (system.NewServiceConfig { homeDir := some "/home/me", cwd := some "/srv" }
        "pocketbase" "~/pb" "pocketbase serve x.com" none).service.execStart
      = "/home/me" ++ "/pb/pocketbase serve x.com" ∧
    (system.NewServiceConfig { homeDir := some "/home/me", cwd := some "/srv" }
        "pocketbase" "~/pb" "pocketbase serve x.com" none).service.standardOutput
      = "append:" ++ ("/home/me" ++ "/pb/logs/service.log") ∧
    (system.NewServiceConfig { homeDir := some "/home/me", cwd := some "/srv" }
        "pocketbase" "~/pb" "pocketbase serve x.com" none).service.standardError
      = "append:" ++ ("/home/me" ++ "/pb/logs/service.log") :=
  C10_exec_and_log_paths { homeDir := some "/home/me", cwd := some "/srv" }
    "/home/me" rfl (by decide) none

theorem isPrefixOf_append_self (l r : List Char) : List.isPrefixOf l (l ++ r) = true := by
  induction l with
  | nil => simp [List.isPrefixOf]
  | cons a as ih => simp [List.isPrefixOf, ih]

theorem keyLine_data_append (key lit : String) (h : lit.data = key.data ++ ['='])
    (rest : List Char) : keyLine key (lit.data ++ rest) = true := by
  rw [keyLine, ← h]
  exact isPrefixOf_append_self _ _

theorem linePeel0 {ys : List Char} :
    splitP (fun c => c == '\n') ('\n' :: ys) = [] :: splitP (fun c => c == '\n') ys := by
  simp [splitP]

theorem linePeel1 (a : List Char) {ys : List Char}
    (ha : ∀ x ∈ a, (x == '\n') = false) :
    splitP (fun c => c == '\n') (a ++ '\n' :: ys)
      = a :: splitP (fun c => c == '\n') ys := by
  rw [splitP_append_sep _ '\n' (by simp) a ys, splitP_of_all_not _ a ha]
  rfl

theorem linePeel2 (a b : List Char) {ys : List Char}
    (ha : ∀ x ∈ a, (x == '\n') = false) (hb : ∀ x ∈ b, (x == '\n') = false) :
    splitP (fun c => c == '\n') (a ++ (b ++ '\n' :: ys))
      = (a ++ b) :: splitP (fun c => c == '\n') ys := by
  rw [← List.append_assoc]
  refine linePeel1 (a ++ b) ?_
  intro x hx
  rcases List.mem_append.mp hx with h | h
  · exact ha x h
  · exact hb x h

theorem unitfile_lines (hdr : String) (u : UnitSection) (sv : ServiceSection)
    (ins : InstallSection)
    (hhdr : ∀ c ∈ hdr.data, (c == '\n') = false)
    (h1 : noNewline u.description) (h2 : noNewline sv.type)
    (h3 : noNewline sv.user) (h4 : noNewline sv.group)
    (h5 : noNewline sv.restart) (h6 : noNewline sv.restartSec)
    (h7 : noNewline sv.standardOutput) (h8 : noNewline sv.standardError)
    (h9 : noNewline sv.execStart) (h10 : noNewline ins.wantedBy) :
    unitFileLines (unitPartStr u ++ hdr ++ sectionTailStr sv ins) =
      ["[Unit]".data,
       "Description=".data ++ u.description.data,
       [],
       hdr.data,
       "Type=".data ++ sv.type.data,
       "User=".data ++ sv.user.data,
       "Group=".data ++ sv.group.data,
       "LimitNOFILE=".data ++ (intDec sv.limitNOFILE).data,
       "Restart=".data ++ sv.restart.data,
       "RestartSec=".data ++ sv.restartSec.data,
       "StandardOutput=".data ++ sv.standardOutput.data,
       "StandardError=".data ++ sv.standardError.data,
       "ExecStart=".data ++ sv.execStart.data,
       [],
       "[Install]".data,
       "WantedBy=".data ++ ins.wantedBy.data,
       []] := by
  have hdata : (unitPartStr u ++ hdr ++ sectionTailStr sv ins).data =
      "[Unit]".data ++ '\n' ::
      ("Description=".data ++ (u.description.data ++ '\n' :: '\n' ::
      (hdr.data ++ '\n' ::
      ("Type=".data ++ (sv.type.data ++ '\n' ::
      ("User=".data ++ (sv.user.data ++ '\n' ::
      ("Group=".data ++ (sv.group.data ++ '\n' ::
      ("LimitNOFILE=".data ++ ((intDec sv.limitNOFILE).data ++ '\n' ::
      ("Restart=".data ++ (sv.restart.data ++ '\n' ::
      ("RestartSec=".data ++ (sv.restartSec.data ++ '\n' ::
      ("StandardOutput=".data ++ (sv.standardOutput.data ++ '\n' ::
      ("StandardError=".data ++ (sv.standardError.data ++ '\n' ::
      ("ExecStart=".data ++ (sv.execStart.data ++ '\n' :: '\n' ::
      ("[Install]".data ++ '\n' ::
      ("WantedBy=".data ++ (ins.wantedBy.data ++ ['\n'])))))))))))))))))))))))) := by
    simp [unitPartStr, sectionTailStr, string_data_append]
  rw [unitFileLines, hdata]
  rw [linePeel1 "[Unit]".data (by decide)]
  rw [linePeel2 "Description=".data u.description.data (by decide) h1]
  rw [linePeel0]
  rw [linePeel1 hdr.data hhdr]
  rw [linePeel2 "Type=".data sv.type.data (by decide) h2]
  rw [linePeel2 "User=".data sv.user.data (by decide) h3]
  rw [linePeel2 "Group=".data sv.group.data (by decide) h4]
  rw [linePeel2 "LimitNOFILE=".data (intDec sv.limitNOFILE).data (by decide)
    (intDec_no_newline sv.limitNOFILE)]
  rw [linePeel2 "Restart=".data sv.restart.data (by decide) h5]
  rw [linePeel2 "RestartSec=".data sv.restartSec.data (by decide) h6]
  rw [linePeel2 "StandardOutput=".data sv.standardOutput.data (by decide) h7]
  rw [linePeel2 "StandardError=".data sv.standardError.data (by decide) h8]
  rw [linePeel2 "ExecStart=".data sv.execStart.data (by decide) h9]
  rw [linePeel0]
  rw [linePeel1 "[Install]".data (by decide)]
  rw [linePeel2 "WantedBy=".data ins.wantedBy.data (by decide) h10]
  rfl

theorem system_ToString_decomp (c : system.SystemdServiceConfig) :
    c.ToString = unitPartStr c.unit ++ "[Service]" ++ sectionTailStr c.service c.install := by
  apply string_ext_data
  simp [system.SystemdServiceConfig.ToString, unitPartStr, sectionTailStr,
    string_data_append]

theorem systemd_ToString_decomp (c : systemd.SystemdServiceConfig) :
    c.ToString.1 = unitPartStr c.unit ++ "[SystemdService]"
      ++ sectionTailStr c.systemdService c.install := by
  apply string_ext_data
  simp [systemd.SystemdServiceConfig.ToString, unitPartStr, sectionTailStr,
    string_data_append]

/-- C3 (amended): for every configuration whose string fields are free of
newline characters, the rendered unit file is structurally exact, in both
package variants: the three sections in order Unit, Service (resp.
SystemdService), Install, each expected key on exactly its one line of its
section, and exactly one blank line between consecutive sections.  (With a
newline inside a field the claim fails, see the counterexample.) -/
theorem C3_serialization_structure :
    (∀ c : system.SystemdServiceConfig,
        configNoNewlines c.unit c.service c.install →
        structuredOk "[Service]" c.ToString = true) ∧
    (∀ d : systemd.SystemdServiceConfig,
        configNoNewlines d.unit d.systemdService d.install →
        structuredOk "[SystemdService]" d.ToString.1 = true) := by
  constructor
  · intro c h
    obtain ⟨h1, h2, h3, h4, h5, h6, h7, h8, h9, h10⟩ := h
    rw [system_ToString_decomp, structuredOk,
      unitfile_lines "[Service]" c.unit c.service c.install (by decide)
        h1 h2 h3 h4 h5 h6 h7 h8 h9 h10]
    simp only [Bool.and_eq_true, beq_iff_eq]
    repeat' apply And.intro
    all_goals
      first
        | trivial
        | exact keyLine_data_append _ _ rfl _
  · intro d h
    obtain ⟨h1, h2, h3, h4, h5, h6, h7, h8, h9, h10⟩ := h
    rw [systemd_ToString_decomp, structuredOk,
      unitfile_lines "[SystemdService]" d.unit d.systemdService d.install (by decide)
        h1 h2 h3 h4 h5 h6 h7 h8 h9 h10]
    simp only [Bool.and_eq_true, beq_iff_eq]
    repeat' apply And.intro
    all_goals
      first
        | trivial
        | exact keyLine_data_append _ _ rfl _

/-- C3 witness: the amended structural theorem applied to the two concrete
configurations the builders produce with default overrides. -/
theorem C3_serialization_structure_witness :
    structuredOk "[Service]"
      (system.NewServiceConfig env0 "pb" "~/pb" "run serve" none).ToString = true ∧
    structuredOk "[SystemdService]"
      (systemd.NewSystemdServiceConfig env0 "pb" "~/pb" "run serve" none).ToString.1 = true :=
  ⟨C3_serialization_structure.1
      (system.NewServiceConfig env0 "pb" "~/pb" "run serve" none) (by decide),
   C3_serialization_structure.2
      (systemd.NewSystemdServiceConfig env0 "pb" "~/pb" "run serve" none) (by decide)⟩

/-- C3 counterexample: a configuration whose description contains a newline
renders a unit file in which the key Description appears on two lines of the
Unit section required to carry it exactly once, and which fails the
structural check; the claim quantifying over every UnitConfig is false. -/
theorem C3_counterexample_newline_in_field :
    countKeyLines "Description" (system.SystemdServiceConfig.ToString
      { unit := { description := "x\nDescription=y" },
        service := { type := "simple", user := "root", group := "root",
                     limitNOFILE := 4096, restart := "always", restartSec := "5s",
                     standardOutput := "append:/root/pb/logs/service.log",
                     standardError := "append:/root/pb/logs/service.log",
                     execStart := "/root/pb/run serve" },
        install := { wantedBy := "multi-user.target" } }) = 2 ∧
    structuredOk "[Service]" (system.SystemdServiceConfig.ToString
      { unit := { description := "x\nDescription=y" },
        service := { type := "simple", user := "root", group := "root",
                     limitNOFILE := 4096, restart := "always", restartSec := "5s",
                     standardOutput := "append:/root/pb/logs/service.log",
                     standardError := "append:/root/pb/logs/service.log",
                     execStart := "/root/pb/run serve" },
        install := { wantedBy := "multi-user.target" } }) = false := by
  decide

/-- C5 counterexample: the claimed save-path formula
"/lib/systemd/system/<serviceName>.service" is false for service names with
dot segments, because the source builds the path with filepath.Join, which
cleans the result: for serviceName "a/../b" the stored path is
"/lib/systemd/system/b.service", not the literal
"/lib/systemd/system/a/../b.service". -/
theorem C5_counterexample_path_literal :
    (systemd.NewSystemdServiceConfig env0 "a/../b" "~/pb" "cmd" none).path ≠
      "/lib/systemd/system/" ++ "a/../b" ++ ".service" ∧
    (systemd.NewSystemdServiceConfig env0 "a/../b" "~/pb" "cmd" none).path =
      "/lib/systemd/system/b.service" := by
  decide

/-- C5 (amended): for identical inputs the two builders agree on every
section (Unit, Service/SystemdService, Install); the systemd variant
additionally carries Path = filepath.Join("/lib/systemd/system",
serviceName + ".service"), which equals the literal
"/lib/systemd/system/<serviceName>.service" whenever every slash-separated
component of serviceName + ".service" is normal (non-empty, no "." or "..");
and the two serializations are identical strings except for the section
header "[Service]" versus "[SystemdService]": they share the same prefix
(the Unit section text) and the same suffix (everything after the header). -/
theorem C5_parallel_variants_agree (env : GoEnv)
    (serviceName baseDir execCommand : String) (opts : Option ConfigOptions) :
    (systemd.NewSystemdServiceConfig env serviceName baseDir execCommand opts).unit
      = (system.NewServiceConfig env serviceName baseDir execCommand opts).unit ∧
    (systemd.NewSystemdServiceConfig env serviceName baseDir execCommand opts).systemdService
      = (system.NewServiceConfig env serviceName baseDir execCommand opts).service ∧
    (systemd.NewSystemdServiceConfig env serviceName baseDir execCommand opts).install
      = (system.NewServiceConfig env serviceName baseDir execCommand opts).install ∧
    (systemd.NewSystemdServiceConfig env serviceName baseDir execCommand opts).path
      = goJoin2 "/lib/systemd/system" (serviceName ++ ".service") ∧
    (goodRel (serviceName ++ ".service") = true →
      (systemd.NewSystemdServiceConfig env serviceName baseDir execCommand opts).path
        = "/lib/systemd/system/" ++ serviceName ++ ".service") ∧
    (system.NewServiceConfig env serviceName baseDir execCommand opts).ToString
      = unitPartStr (system.NewServiceConfig env serviceName baseDir execCommand opts).unit
        ++ "[Service]"
        ++ sectionTailStr
            (system.NewServiceConfig env serviceName baseDir execCommand opts).service
            (system.NewServiceConfig env serviceName baseDir execCommand opts).install ∧
    (systemd.NewSystemdServiceConfig env serviceName baseDir execCommand opts).ToString.1
      = unitPartStr (system.NewServiceConfig env serviceName baseDir execCommand opts).unit
        ++ "[SystemdService]"
        ++ sectionTailStr
            (system.NewServiceConfig env serviceName baseDir execCommand opts).service
            (system.NewServiceConfig env serviceName baseDir execCommand opts).install := by
  refine ⟨rfl, rfl, rfl, rfl, ?_, system_ToString_decomp _, systemd_ToString_decomp _⟩
  intro hrel
  have hgood : goodAbs "/lib/systemd/system" = true := by decide
  have hne : ("/lib/systemd/system" : String) ≠ "" := by decide
  have hpath : (systemd.NewSystemdServiceConfig env serviceName baseDir execCommand opts).path
      = goJoin2 "/lib/systemd/system" (serviceName ++ ".service") := rfl
  rw [hpath, goJoin2, if_neg hne,
    goClean_append "/lib/systemd/system" (serviceName ++ ".service") hgood hrel]
  rw [show (("/lib/systemd/system" : String) ++ "/") = "/lib/systemd/system/" from rfl,
    string_append_assoc]

/-- C5 witness: at a concrete input the literal path equality and a sample
field agreement hold. -/
theorem C5_parallel_variants_agree_witness :
    (systemd.NewSystemdServiceConfig env0 "pocketbase" "~/pb" "cmd" none).path
      = "/lib/systemd/system/pocketbase.service" ∧
    (systemd.NewSystemdServiceConfig env0 "pocketbase" "~/pb" "cmd" none).systemdService
      = (system.NewServiceConfig env0 "pocketbase" "~/pb" "cmd" none).service :=
  ⟨((C5_parallel_variants_agree env0 "pocketbase" "~/pb" "cmd" none).2.2.2.2.1
      (by decide)).trans (by decide),
   (C5_parallel_variants_agree env0 "pocketbase" "~/pb" "cmd" none).2.1⟩
